import Mathlib

/-!
Verification of the BioSimSpace alignment and AMBER-process modules.

This development is a shallow embedding of two Python source files:

* src/python/BioSimSpace/Align/__init__.py
  (matchAtoms, _score_rmsd): candidate atom mappings produced by an
  external MCS matcher are scored by an external RMSD routine and then
  sorted.  The external parts (molecules, coordinates, Sire.Maths.getRMSD)
  are inputs of the embedding; the sorting and return-shape logic of the
  Python file is embedded faithfully.

* src/python/BioSimSpace/Process/amber.py
  (Amber._update_energy_dict, Amber._get_stdout_record, Amber.getRecord,
  Amber.getFrames, Handler.on_any_event, Amber.start, Amber.__init__):
  the incremental energy-record parser, the record store queries, the
  trajectory frame accessor and the watcher state machine.

Modelling conventions

* Python exceptions are modelled with an explicit error type PyErr and
  the Except monad; a Python function that can raise returns
  Except PyErr.
* Python `is` / `is not` comparisons on values CPython guarantees to be
  interned (one-character strings such as the '|' banner test, and small
  ints such as `len(...) is 0`) are modelled as equality.  The identity
  test `key is 'NSTEP'` of _get_stdout_record is different: its left
  side can be a computed string, and a computed string is a fresh object
  that is never identical to the interned literal even when its
  characters are NSTEP.  Key objects are therefore modelled as a string
  value together with an is-the-interned-NSTEP-literal flag (PyStr), and
  the identity test reads that flag.
* Machine reals only appear as outputs of external native libraries
  (RMSD scores) or through Python float() coercion of decimal literals;
  scores are taken as an input list of integers (only their order is
  used by the code under verification), and float() of a decimal string
  is modelled exactly as a (mantissa, power-of-ten) pair.
* The class process.MultiDict is not part of the two source files; it is
  modelled from the spec (section 3, EnergyRecordStore): an
  insertion-ordered mapping from string keys to append-only sequences of
  values, where assignment d[k] = v appends v to the sequence of k.
-/

namespace BSS

/-- Python exception values, by class and message. -/
inductive PyErr where
  | valueError (msg : String)
  | typeError (msg : String)
  | indexError
  | keyError
  | ioError (msg : String)
  | nameError (missingName : String)
deriving DecidableEq, Repr

/-- Decidable equality of Except values (used to evaluate the models on
concrete inputs). -/
instance {ε α : Type} [DecidableEq ε] [DecidableEq α] : DecidableEq (Except ε α) :=
  fun x y =>
    match x, y with
    | .error a, .error b =>
        if h : a = b then .isTrue (congrArg Except.error h)
        else .isFalse (fun hq => h (Except.error.inj hq))
    | .ok a, .ok b =>
        if h : a = b then .isTrue (congrArg Except.ok h)
        else .isFalse (fun hq => h (Except.ok.inj hq))
    | .error _, .ok _ => .isFalse (fun hq => Except.noConfusion hq)
    | .ok _, .error _ => .isFalse (fun hq => Except.noConfusion hq)

/-! ### The record store

Modelled from the spec: process.MultiDict (not under src/) is the
EnergyRecordStore of spec section 3: "a mapping from record-key (string)
to an ordered sequence of parsed values (numeric, append-only)"; the
Python assignment `d[key] = value` appends `value` to the sequence held
for `key`, creating a singleton sequence for a fresh key.  Values are
kept as the raw strings that the parser appends; numeric coercion
happens at query time (Amber._get_stdout_record). -/
abbrev Store := List (String × List String)

/-- Lookup of the value sequence for a key (Python d[key], as an Option). -/
def Store.find? : Store → String → Option (List String)
  | [], _ => none
  | (k, vs) :: d, key => if k = key then some vs else Store.find? d key

/-- The MultiDict assignment d[key] = v: append v to the sequence for key,
or create the singleton sequence [v] for a fresh key (kept in insertion
order). -/
def Store.push : Store → String → String → Store
  | [], key, v => [(key, [v])]
  | (k, vs) :: d, key, v =>
      if k = key then (k, vs ++ [v]) :: d else (k, vs) :: Store.push d key v

/-! ### Python string helpers (ASCII fragment used by amber.py) -/

/-- Python str.isspace characters relevant to this code (ASCII whitespace,
the characters the `\s` class and str.split and str.strip act on for the
log lines at hand). -/
def isPySpace (c : Char) : Bool :=
  c = ' ' || c = '\t' || c = '\n' || c = '\r' || c = '\x0b' || c = '\x0c'

/-- Python str.upper on an ASCII character. -/
def pyToUpper (c : Char) : Char :=
  if 'a' ≤ c ∧ c ≤ 'z' then Char.ofNat (c.toNat - 32) else c

/-- Python line.upper() over the characters of a line. -/
def pyUpperL (cs : List Char) : List Char := cs.map pyToUpper

/-- Python str.strip() on a character list. -/
def pyStripL (cs : List Char) : List Char :=
  ((cs.dropWhile isPySpace).reverse.dropWhile isPySpace).reverse

/-- Python str.strip() on a string. -/
def pyStrip (s : String) : String := String.mk (pyStripL s.data)

/-- Python str.upper() on a string. -/
def pyUpper (s : String) : String := String.mk (pyUpperL s.data)

/-- Helper for Python str.split(): collect maximal runs of non-whitespace
characters; cur is the reversed current run. -/
def splitWsAux : List Char → List Char → List String
  | [], cur => if cur = [] then [] else [String.mk cur.reverse]
  | c :: cs, cur =>
      if isPySpace c then
        if cur = [] then splitWsAux cs []
        else String.mk cur.reverse :: splitWsAux cs []
      else splitWsAux cs (c :: cur)

/-- Python line.split(): split on whitespace runs, dropping empty pieces. -/
def splitWs (cs : List Char) : List String := splitWsAux cs []

/-- Greedy take of a character class (one regex quantifier step):
returns (matched run, rest). -/
def spanC (p : Char → Bool) (cs : List Char) : List Char × List Char :=
  (cs.takeWhile p, cs.dropWhile p)

/-- The `[A-Z]` character class of the amber.py record regex. -/
def isUpperAZ (c : Char) : Bool := 'A' ≤ c && c ≤ 'Z'

/-! ### The record regex of Amber._update_energy_dict

The source calls
  findall("(\d*\-*\d*\s*[A-Z]+\(*[A-Z]*\)*)\s*=\s*(\-*\d+\.?\d*)", line.upper())
Every pair of adjacent quantified atoms in this pattern has disjoint
character classes (digits, dashes, whitespace, upper-case letters,
parentheses, the equals sign and the dot never overlap), so the greedy
left-to-right match without backtracking computes exactly the match that
the Python backtracking engine finds, and re.findall scanning advances
one character after a failed attempt and past each (non-empty) match. -/

/-- Attempt to match the record pattern at the start of cs.  On success
returns (group 1, group 2, rest of the input after the match). -/
def matchPat (cs : List Char) : Option (List Char × List Char × List Char) :=
  let (d1, r1) := spanC Char.isDigit cs
  let (m1, r2) := spanC (fun c => c = '-') r1
  let (d2, r3) := spanC Char.isDigit r2
  let (s1, r4) := spanC isPySpace r3
  let (a1, r5) := spanC isUpperAZ r4
  if a1 = [] then none
  else
    let (p1, r6) := spanC (fun c => c = '(') r5
    let (a2, r7) := spanC isUpperAZ r6
    let (p2, r8) := spanC (fun c => c = ')') r7
    let g1 := d1 ++ m1 ++ d2 ++ s1 ++ a1 ++ p1 ++ a2 ++ p2
    let r9 := r8.dropWhile isPySpace
    match r9 with
    | '=' :: r10 =>
        let r11 := r10.dropWhile isPySpace
        let (m2, r12) := spanC (fun c => c = '-') r11
        let (d3, r13) := spanC Char.isDigit r12
        if d3 = [] then none
        else
          match r13 with
          | '.' :: r14 =>
              let (d4, r15) := spanC Char.isDigit r14
              some (g1, m2 ++ d3 ++ ['.'] ++ d4, r15)
          | _ => some (g1, m2 ++ d3, r13)
    | _ => none

/-- re.findall scanning loop with a fuel bound (every match consumes at
least one character, so fuel = length of the input always suffices). -/
def findRecordsAux : Nat → List Char → List (String × String)
  | 0, _ => []
  | _ + 1, [] => []
  | n + 1, c :: cs =>
      match matchPat (c :: cs) with
      | some (g1, g2, rest) =>
          (String.mk g1, String.mk g2) :: findRecordsAux n rest
      | none => findRecordsAux n cs

/-- re.findall of the record pattern over an (already upper-cased) line:
the list of (record name, value) capture pairs in scan order. -/
def findRecords (cs : List Char) : List (String × String) :=
  findRecordsAux cs.length cs

/-! ### Amber._update_energy_dict -/

/-- The protocol type of the running process (Protocol.protocol
ProtocolType); only "minimisation versus anything else" matters to the
parser. -/
inductive ProtocolTy where
  | minimisation
  | equilibration
  | production
deriving DecidableEq, Repr

/-- Result of processing the record list of one line (the inner
`for key, value in records` loop): either the loop ran to completion, or
the duplicate-NSTEP check fired and the method returned. -/
inductive RecRes where
  | done (d : Store)
  | stopped (d : Store)
deriving DecidableEq, Repr

/-- The `for key, value in records` loop of _update_energy_dict: strip
the key; on key NSTEP, if NSTEP is already stored and the value equals
the most recent stored NSTEP value, return (no new frame); otherwise
append. -/
def applyRecords : Store → List (String × String) → RecRes
  | d, [] => .done d
  | d, (k, v) :: rest =>
      let key := pyStrip k
      if key = "NSTEP" then
        match Store.find? d "NSTEP" with
        | some vs =>
            if v = vs.getLastD "" then .stopped d
            else applyRecords (Store.push d key v) rest
        | none => applyRecords (Store.push d key v) rest
      else applyRecords (Store.push d key v) rest

/-- Result of processing a single line of the energy file: continue with
an updated header flag and store, return early (duplicate frame), or
raise. -/
inductive StepRes where
  | cont (is_header : Bool) (d : Store)
  | halt (d : Store)
  | err (e : PyErr)
deriving DecidableEq, Repr

/-- Outcome of the minimisation-dialect block for one line: jump to the
next line with the header flag set (the continue statement, skipping the
regex stage), fall through to the regex stage, return early, or raise. -/
inductive MinRes where
  | skip (d : Store)
  | fall (is_header : Bool) (d : Store)
  | halt (d : Store)
  | err (e : PyErr)
deriving DecidableEq, Repr

/-- The minimisation-dialect header-record block of _update_energy_dict
(the `if is_header` body): data is line.upper().split(); if NSTEP is
stored and data[0] equals its last stored value, return (no new frame);
otherwise append data[0] under NSTEP and data[1] under ENERGY (data[0]
or data[1] on a too-short line raises IndexError; the conjunction
`'NSTEP' in dict and data[0] == ...` short-circuits, so data[0] is first
touched in the comparison only when NSTEP is present) and clear the
header flag. -/
def minHeaderStep (d : Store) (data : List String) : MinRes :=
  let app : MinRes :=
    match data with
    | x :: y :: _ =>
        .fall false (Store.push (Store.push d "NSTEP" x) "ENERGY" y)
    | _ => .err .indexError
  match Store.find? d "NSTEP" with
  | some vs =>
      match data.head? with
      | none => .err .indexError
      | some d0 => if d0 = vs.getLastD "" then .halt d else app
  | none => app

/-- The minimisation-specific part of the per-line processing: a line
without an equals sign whose first whitespace token is NSTEP sets the
header flag and continues to the next line; otherwise, if the header
flag is set, the header-record block runs; otherwise fall through. -/
def minStep (h : Bool) (d : Store) (cs up : List Char) : MinRes :=
  if '=' ∉ cs then
    let data := splitWs up
    if data ≠ [] ∧ data.headD "" = "NSTEP" then .skip d
    else if h then minHeaderStep d data
    else .fall h d
  else if h then minHeaderStep d (splitWs up)
  else .fall h d

/-- Processing of one line of the energy file by _update_energy_dict,
with h the current is_header flag and d the store.

Control flow of the source: skip lines that are empty or start with the
'|' banner character; for minimisation protocols run the minimisation
block; in all remaining fall-through cases (every protocol type) the
line is run through the record regex and the duplicate-suppressing
append loop.  The regex stage is not inside an else of the minimisation
branch in the source: it also runs on minimisation lines that were
neither skipped, continued, halted nor raised on. -/
def stepLine (pt : ProtocolTy) (h : Bool) (d : Store) (line : String) : StepRes :=
  let cs := line.data
  if cs = [] ∨ cs.headD ' ' = '|' then .cont h d
  else
    let up := pyUpperL cs
    let m : MinRes := if pt = .minimisation then minStep h d cs up else .fall h d
    match m with
    | .skip d2 => .cont true d2
    | .halt d2 => .halt d2
    | .err e => .err e
    | .fall h2 d2 =>
        match applyRecords d2 (findRecords up) with
        | .done d3 => .cont h2 d3
        | .stopped d3 => .halt d3

/-- The `for line in f` loop of _update_energy_dict over the lines of the
energy file: fold stepLine, stopping at a return (halt) or an exception. -/
def runLines (pt : ProtocolTy) : Bool → Store → List String → Except PyErr Store
  | _, d, [] => .ok d
  | h, d, line :: rest =>
      match stepLine pt h d line with
      | .cont h2 d2 => runLines pt h2 d2 rest
      | .halt d2 => .ok d2
      | .err e => .error e

/-- Amber._update_energy_dict: read the lines of the energy file and fold
them into the store, starting with the header flag cleared. -/
def updateEnergyDict (pt : ProtocolTy) (lines : List String) (d : Store) :
    Except PyErr Store :=
  runLines pt false d lines

/-! ### Numeric coercion (Amber._get_stdout_record) -/

/-- Value of a run of decimal digits. -/
def digitsVal (cs : List Char) : Nat :=
  cs.foldl (fun a c => 10 * a + (c.toNat - 48)) 0

/-- Optional leading sign of a Python numeric literal: returns
(is negative, rest). -/
def readSign : List Char → Bool × List Char
  | '-' :: cs => (true, cs)
  | '+' :: cs => (false, cs)
  | cs => (false, cs)

/-- Python int(s) on the decimal strings this code stores: surrounding
whitespace is stripped, an optional sign is followed by one or more
digits; anything else raises ValueError (modelled as none). -/
def pyIntOf (s : String) : Option Int :=
  let cs := pyStripL s.data
  let (neg, cs2) := readSign cs
  if cs2 ≠ [] ∧ cs2.all Char.isDigit then
    let n : Int := Int.ofNat (digitsVal cs2)
    some (if neg then -n else n)
  else none

/-- Python float(s) on the plain decimal literals this code stores
(optional sign, digits with an optional fractional part; the record
regex can only produce such strings).  The value is represented exactly
as a pair (mantissa, e) denoting mantissa / 10 ^ e; IEEE rounding of the
external float type is outside the embedding and no claim compares
distinct representations. -/
def pyFloatOf (s : String) : Option (Int × Nat) :=
  let cs := pyStripL s.data
  let (neg, cs2) := readSign cs
  let ip := cs2.takeWhile Char.isDigit
  let r2 := cs2.dropWhile Char.isDigit
  let signed : Nat → Int := fun n => if neg then -(Int.ofNat n) else Int.ofNat n
  match r2 with
  | [] => if ip = [] then none else some (signed (digitsVal ip), 0)
  | '.' :: fr =>
      if fr.all Char.isDigit ∧ (ip ≠ [] ∨ fr ≠ []) then
        some (signed (digitsVal ip * 10 ^ fr.length + digitsVal fr), fr.length)
      else none
  | _ => none

/-- A coerced record value: Python int for the step-count key, Python
float (an exact decimal mantissa / 10 ^ e) for every other key. -/
inductive PyNum where
  | i (n : Int)
  | f (mant : Int) (exp10 : Nat)
deriving DecidableEq, Repr

/-- A Python string object as it reaches _get_stdout_record as the key:
its character value together with whether the object is the module's
interned 'NSTEP' literal.  CPython interns identifier-like string
constants, so every occurrence of the literal 'NSTEP' in amber.py is the
same object and the identity test `key is 'NSTEP'` is true exactly for a
key passed through as that literal; str.upper() always allocates a new
string, so a key built by record.strip().upper() is never that object,
whatever its characters. -/
structure PyStr where
  val : String
  isNstepLit : Bool
deriving DecidableEq, Repr

/-- A string literal of the module: interned, so it is the 'NSTEP'
literal object exactly when its characters are NSTEP (the keys the
internal accessors getStep, getBondEnergy, ... pass). -/
def PyStr.lit (s : String) : PyStr := ⟨s, s == "NSTEP"⟩

/-- A freshly allocated string (the result of str.upper()): a new
object, never the interned literal. -/
def PyStr.fresh (s : String) : PyStr := ⟨s, false⟩

/-- The per-value coercion of _get_stdout_record: int(x) when the
identity test `key is 'NSTEP'` holds — the key object is the interned
literal — and float(x) otherwise; a ValueError from the coercion is not
caught there. -/
def coerceOne (key : PyStr) (v : String) : Except PyErr PyNum :=
  if key.isNstepLit then
    match pyIntOf v with
    | some n => .ok (.i n)
    | none => .error (.valueError "invalid literal for int")
  else
    match pyFloatOf v with
    | some (m, e) => .ok (.f m e)
    | none => .error (.valueError "could not convert string to float")

/-- A query answer: the latest coerced value, or the coerced full
history. -/
inductive RecPayload where
  | single (v : PyNum)
  | series (vs : List PyNum)
deriving DecidableEq, Repr

/-- Coerce every stored value of a history in order (the list
comprehension `[int(x) for x in d[key]]` / `[float(x) for x in d[key]]`),
propagating the first coercion error. -/
def coerceAll (key : PyStr) : List String → Except PyErr (List PyNum)
  | [] => .ok []
  | v :: vs =>
      match coerceOne key v with
      | .ok w => (coerceAll key vs).map (fun ws => w :: ws)
      | .error e => .error e

/-- Amber._get_stdout_record: None on an empty store; otherwise look the
key up by its characters (dict indexing compares by equality; a KeyError
is caught and turned into None); a time-series query coerces the full
history, a latest-value query coerces the last stored value — int versus
float chosen by the identity test on the key object. -/
def getStdoutRecord (d : Store) (key : PyStr) (time_series : Bool) :
    Except PyErr (Option RecPayload) :=
  if d.length = 0 then .ok none
  else if time_series then
    match Store.find? d key.val with
    | none => .ok none
    | some vs => (coerceAll key vs).map (fun ws => some (.series ws))
  else
    match Store.find? d key.val with
    | none => .ok none
    | some vs => (coerceOne key (vs.getLastD "")).map (fun w => some (.single w))

/-- Amber.getRecord: canonicalise the requested key with strip().upper()
— str.upper() allocates a fresh string object, so the key that reaches
_get_stdout_record on this path is never the interned 'NSTEP' literal —
and query the store (the prior _update_energy_dict call that refreshes
the store from the file is the caller's read-your-own-write step; the
query itself is over the refreshed store passed in here). -/
def getRecord (d : Store) (record : String) (time_series : Bool) :
    Except PyErr (Option RecPayload) :=
  getStdoutRecord d (PyStr.fresh (pyUpper (pyStrip record))) time_series

/-- Amber.getStep: the internal accessor for the step count; it passes
the module literal 'NSTEP' itself, so the identity test in
_get_stdout_record holds on this path. -/
def getStep (d : Store) (time_series : Bool) :
    Except PyErr (Option RecPayload) :=
  getStdoutRecord d (PyStr.lit "NSTEP") time_series

/-! ### Amber.getFrames -/

/-- The indices argument of getFrames: absent (all frames), a single
int, a list of ints, or anything else (rejected by the validation). -/
inductive IndicesArg where
  | noneArg
  | intArg (i : Int)
  | listArg (l : List Int)
  | badArg
deriving DecidableEq, Repr

/-- The per-index loop of getFrames: an index whose absolute value
exceeds max_frame takes the raise branch.  The raise statement is
  raise ValueError("Frame index (%d) of of range (0-%d)." %s (x, max_frame))
whose message expression reads the undefined name s, so the exception
that actually escapes is a NameError; either way the out-of-range
request fails.  In-range indices each produce one frame (modelled by the
index of the Sire system that the loop body builds for it). -/
def framesLoop (maxFrame : Int) : List Int → List Int → Except PyErr (List Int)
  | acc, [] => .ok acc
  | acc, x :: xs =>
      if (x.natAbs : Int) > maxFrame then .error (.nameError "s")
      else framesLoop maxFrame (acc ++ [x]) xs

/-- Amber.getFrames: None without a trajectory file; otherwise normalise
the indices argument (None means all frames, an int is wrapped in a
list, a list of ints passes, anything else raises ValueError), run the
per-index loop against max_frame = n_frames - 1, and finally remove the
temporary frame coordinate file — a step that reads the local variable
frame_file, which is only ever assigned inside the loop body, so a run
whose loop body never executed raises a NameError there instead of
returning its (empty) frame list. -/
def getFrames (hasTraj : Bool) (nFrames : Nat) (arg : IndicesArg) :
    Except PyErr (Option (List Int)) :=
  if hasTraj = false then .ok none
  else
    match (match arg with
           | .noneArg => Except.ok ((List.range nFrames).map Int.ofNat)
           | .intArg i => Except.ok [i]
           | .listArg l => Except.ok l
           | .badArg => Except.error (PyErr.valueError
               "Unsupported index. Indices must be an int, or list of int types.")
           : Except PyErr (List Int)) with
    | .error e => .error e
    | .ok indices =>
        match framesLoop ((nFrames : Int) - 1) [] indices with
        | .error e => .error e
        | .ok frames =>
            if indices = [] then .error (.nameError "frame_file")
            else .ok (some frames)

/-! ### The watcher state machine (Handler.on_any_event, Amber.start) -/

/-- The watcher-visible state of an Amber process handle: the
_is_watching flag and the record store _stdout_dict. -/
structure WatchState where
  is_watching : Bool
  store : Store
deriving DecidableEq, Repr

/-- Handler.on_any_event: a non-modified event does nothing; a modified
event first replaces the store by a fresh empty MultiDict and sets the
watching flag when the flag is still clear (the first modification seen
after start), and then runs _update_energy_dict on the store.  The flag
is set and the store cleared before the parse, so the parse always
starts from the empty store on that first event. -/
def onAnyEvent (pt : ProtocolTy) (lines : List String) (eventType : String)
    (s : WatchState) : Except PyErr WatchState :=
  if eventType = "modified" then
    let s1 : WatchState := if s.is_watching then s else ⟨true, []⟩
    (updateEnergyDict pt lines s1.store).map (fun d => ⟨s1.is_watching, d⟩)
  else .ok s

/-- The watcher-state effect of Amber.start: when the process is already
running the method returns at once; otherwise it resets the watching
flag (the store is left alone — it is wiped only on the first
modification event). -/
def amberStart (running : Bool) (s : WatchState) : WatchState :=
  if running then s else ⟨false, s.store⟩

/-! ### Executable resolution (Amber.__init__) -/

/-- What Amber.__init__ leaves in self._exe: a file-system path, or the
protocol argument — the source line for an explicit existing executable
is `self._exe = protocol`, which stores the protocol object, not the
given path. -/
inductive ExeVal where
  | path (p : String)
  | protocolObject
deriving DecidableEq, Repr

/-- The executable-resolution block of Amber.__init__, parameterised by
the AMBERHOME environment entry, the file-existence predicate and the
outcome of the external findExe PATH search.  Returns the value bound to
self._exe, none when the block falls through every branch without
binding it (AMBERHOME set but $AMBERHOME/bin/sander absent — the PATH
search is in the else of the AMBERHOME check and is not reached), or the
raised error (missing explicit executable, or a findExe failure). -/
def resolveExe (exe : Option String) (amberHome : Option String)
    (isFile : String → Bool) (findExeResult : Except PyErr String) :
    Except PyErr (Option ExeVal) :=
  match exe with
  | none =>
      match amberHome with
      | some home =>
          if isFile (home ++ "/bin/sander") then
            .ok (some (.path (home ++ "/bin/sander")))
          else .ok none
      | none => findExeResult.map (fun p => some (.path p))
  | some p =>
      if isFile p then .ok (some .protocolObject)
      else .error (.ioError ("AMBER executable does not exist: " ++ p))

/-! ### Atom matching and scoring (Align/__init__.py) -/

/-- An atom mapping: a dictionary from atom indices of molecule0 to atom
indices of molecule1. -/
abbrev AtomMapping := List (Nat × Nat)

/-- The order that a Python stable sort by score induces on candidate
positions: by score, ties broken by input position.  Python's sorted is
stable, and a stable sort by key of the distinct positions 0..n-1 is
exactly the (unique) sort by this lexicographic linear order. -/
def lexLe (s : List Int) (a b : Nat) : Prop :=
  s.getD a 0 < s.getD b 0 ∨ (s.getD a 0 = s.getD b 0 ∧ a ≤ b)

instance lexLeDec (s : List Int) : DecidableRel (lexLe s) := fun _ _ =>
  inferInstanceAs (Decidable (_ ∨ _))

instance lexLeTotal (s : List Int) : IsTotal Nat (lexLe s) := by
  constructor
  intro a b
  unfold lexLe
  rcases lt_trichotomy (s.getD a 0) (s.getD b 0) with h | h | h
  · exact Or.inl (Or.inl h)
  · rcases Nat.le_total a b with h2 | h2
    · exact Or.inl (Or.inr ⟨h, h2⟩)
    · exact Or.inr (Or.inr ⟨h.symm, h2⟩)
  · exact Or.inr (Or.inl h)

instance lexLeTrans (s : List Int) : IsTrans Nat (lexLe s) := by
  constructor
  intro a b c hab hbc
  unfold lexLe at *
  rcases hab with h1 | ⟨h1, h1b⟩
  · rcases hbc with h2 | ⟨h2, _⟩
    · exact Or.inl (h1.trans h2)
    · exact Or.inl (h2 ▸ h1)
  · rcases hbc with h2 | ⟨h2, h2b⟩
    · exact Or.inl (h1 ▸ h2)
    · exact Or.inr ⟨h1.trans h2, h1b.trans h2b⟩

/-- The line `keys = sorted(range(len(scores)), key=lambda k: scores[k])`
of _score_rmsd: the positions 0..n-1 sorted stably by their score. -/
def sortKeys (scores : List Int) : List Nat :=
  List.insertionSort (lexLe scores) (List.range scores.length)

/-- _score_rmsd after the external per-candidate RMSD evaluations: given
the candidate mappings and the parallel list of scores returned by
Sire.Maths.getRMSD for them (an external native routine — only the order
of the scores is used by this function), return the mappings and scores
reordered by the stable sort on score.  The source multiplies each
returned score by the angstrom unit; the unit tag does not affect the
ordering and is omitted. -/
def scoreRmsd (mappings : List AtomMapping) (scores : List Int) :
    List AtomMapping × List Int :=
  let keys := sortKeys scores
  (keys.map (fun k => mappings.getD k []), keys.map (fun k => scores.getD k 0))

/-- The result shapes of matchAtoms: absent (zero MCS candidates), a
single mapping (matches == 1), a list of mappings, or a list of mappings
paired with their scores (return_scores). -/
inductive MatchResult where
  | noMatch
  | single (m : AtomMapping)
  | multiple (ms : List AtomMapping)
  | withScores (ms : List AtomMapping) (ss : List Int)
deriving DecidableEq, Repr

/-- matchAtoms after the external MCS search, parameterised by the
candidate mappings the matcher returned and their external RMSD scores
(numMatches embeds the matches argument of the source, a Lean keyword).
The argument validation that precedes the search rejects a negative
matches count with a ValueError; zero candidates yield None; matches ==
1 returns the single best mapping (indexing [0][0] into the sorted
result — an IndexError case is unreachable there because the candidate
list is non-empty); otherwise the first `matches` sorted mappings are
returned, with their scores when return_scores is set. -/
def matchAtoms (mappings : List AtomMapping) (scores : List Int)
    (numMatches : Int) (return_scores : Bool) : Except PyErr MatchResult :=
  if numMatches < 0 then .error (.valueError "matches must be positive!")
  else if mappings.length = 0 then .ok .noMatch
  else if numMatches = 1 then
    match (scoreRmsd mappings scores).1.head? with
    | some m => .ok (.single m)
    | none => .error .indexError
  else if return_scores then
    .ok (.withScores ((scoreRmsd mappings scores).1.take numMatches.toNat)
      ((scoreRmsd mappings scores).2.take numMatches.toNat))
  else .ok (.multiple ((scoreRmsd mappings scores).1.take numMatches.toNat))

/-! ### Concrete data used by the claims -/

/-- The dynamics-dialect log line of the spec's worked example. -/
def dynLine : String := "NSTEP = 100   TIME(PS) = 0.200  ETOT = -1234.5\n"

/-- The store that parsing dynLine produces: one frame. -/
def dynStore : Store :=
  [("NSTEP", ["100"]), ("TIME(PS)", ["0.200"]), ("ETOT", ["-1234.5"])]

/-- A two-frame store used to evaluate the record queries. -/
def twoFrameStore : Store :=
  [("NSTEP", ["100", "200"]), ("ETOT", ["-1234.5", "-1234.8"])]

end BSS

namespace BSS

/-! ## Theorems for the claims -/

/-- Claim C1: for the dynamics dialect, feeding _update_energy_dict the
line "NSTEP = 100   TIME(PS) = 0.200  ETOT = -1234.5" followed by an
exact repeat appends exactly one frame: the NSTEP series has length 1
with value 100 (queried through the literal-key accessor getStep, the
path on which the step count is int-coerced).  The last conjunct shows
the same when the repeat arrives through a second parser run over the
grown file. -/
theorem dynamics_duplicate_frame_appends_once :
    updateEnergyDict .production [dynLine, dynLine] [] = .ok dynStore ∧
    Store.find? dynStore "NSTEP" = some ["100"] ∧
    getStep dynStore true = .ok (some (.series [.i 100])) ∧
    [PyNum.i 100].length = 1 ∧
    updateEnergyDict .production [dynLine, dynLine] dynStore = .ok dynStore :=
  ⟨by decide, by decide, by decide, rfl, by decide⟩

/-- Claim C2: for every non-empty candidate set, _score_rmsd returns the
scores in non-decreasing order, candidates with equal scores keep their
input order (the sort key list is pairwise increasing on positions of
equal score), the key list is a permutation of the input positions, and
the sorted mapping list keeps the candidate count. -/
theorem score_rmsd_sorted_nondecreasing_stable
    (mappings : List AtomMapping) (scores : List Int)
    (hne : scores ≠ []) (hlen : mappings.length = scores.length) :
    List.Sorted (· ≤ ·) (scoreRmsd mappings scores).2 ∧
    (sortKeys scores).Pairwise
      (fun a b => scores.getD a 0 = scores.getD b 0 → a < b) ∧
    (sortKeys scores).Perm (List.range scores.length) ∧
    (scoreRmsd mappings scores).1.length = mappings.length := by
  have hsorted : (sortKeys scores).Pairwise (lexLe scores) :=
    List.sorted_insertionSort (lexLe scores) (List.range scores.length)
  have hperm : (sortKeys scores).Perm (List.range scores.length) :=
    List.perm_insertionSort (lexLe scores) (List.range scores.length)
  have hnodup : (sortKeys scores).Nodup :=
    hperm.symm.nodup (List.nodup_range scores.length)
  refine ⟨?_, ?_, hperm, ?_⟩
  · show ((sortKeys scores).map (fun k => scores.getD k 0)).Pairwise (· ≤ ·)
    rw [List.pairwise_map]
    refine hsorted.imp ?_
    intro a b hab
    rcases hab with h | ⟨h, _⟩
    · exact le_of_lt h
    · exact le_of_eq h
  · refine (hsorted.and hnodup).imp ?_
    intro a b hab heq
    rcases hab with ⟨h | ⟨_, hle⟩, hneq⟩
    · exact absurd heq (ne_of_lt h)
    · exact lt_of_le_of_ne hle hneq
  · show ((sortKeys scores).map (fun k => mappings.getD k [])).length = mappings.length
    rw [List.length_map, hperm.length_eq, List.length_range, hlen]

/-- Witness for C2 at four candidates with scores [3, 1, 1, 2] (one tie). -/
theorem score_rmsd_sorted_nondecreasing_stable_witness :
    ([3, 1, 1, 2] : List Int) ≠ [] ∧
    (List.Sorted (· ≤ ·) (scoreRmsd [[(0, 0)], [(1, 1)], [(2, 2)], [(3, 3)]] [3, 1, 1, 2]).2 ∧
     (sortKeys [3, 1, 1, 2]).Pairwise
       (fun a b => ([3, 1, 1, 2] : List Int).getD a 0 = ([3, 1, 1, 2] : List Int).getD b 0 → a < b) ∧
     (sortKeys [3, 1, 1, 2]).Perm (List.range ([3, 1, 1, 2] : List Int).length) ∧
     (scoreRmsd [[(0, 0)], [(1, 1)], [(2, 2)], [(3, 3)]] [3, 1, 1, 2]).1.length =
       ([[(0, 0)], [(1, 1)], [(2, 2)], [(3, 3)]] : List AtomMapping).length) :=
  ⟨by decide,
   score_rmsd_sorted_nondecreasing_stable [[(0, 0)], [(1, 1)], [(2, 2)], [(3, 3)]]
     [3, 1, 1, 2] (by decide) (by decide)⟩

/-- Claim C3: matchAtoms with matches == 1 returns a single mapping (the
head of the sorted candidates, not a one-element list), and matchAtoms
with matches == K > 1 when the matcher yields only N < K candidates
returns the list of all N sorted mappings. -/
theorem match_atoms_return_shapes
    (mappings : List AtomMapping) (scores : List Int) (K : Int)
    (hne : mappings ≠ []) (hlen : scores.length = mappings.length)
    (hK : 1 < K) (hNK : (mappings.length : Int) < K) :
    matchAtoms mappings scores 1 false =
      .ok (.single ((scoreRmsd mappings scores).1.headD [])) ∧
    matchAtoms mappings scores K false =
      .ok (.multiple (scoreRmsd mappings scores).1) ∧
    (scoreRmsd mappings scores).1.length = mappings.length := by
  have hperm : (sortKeys scores).Perm (List.range scores.length) :=
    List.perm_insertionSort (lexLe scores) (List.range scores.length)
  have hlen2 : (scoreRmsd mappings scores).1.length = mappings.length := by
    show ((sortKeys scores).map (fun k => mappings.getD k [])).length = mappings.length
    rw [List.length_map, hperm.length_eq, List.length_range, hlen]
  have hpos : 0 < mappings.length := List.length_pos.mpr hne
  obtain ⟨a, as, hcons⟩ : ∃ a as, (scoreRmsd mappings scores).1 = a :: as := by
    cases hcase : (scoreRmsd mappings scores).1 with
    | nil => rw [hcase] at hlen2; simp at hlen2; omega
    | cons a as => exact ⟨a, as, rfl⟩
  refine ⟨?_, ?_, hlen2⟩
  · unfold matchAtoms
    rw [if_neg (by omega), if_neg (by omega), if_pos rfl, hcons]
    rfl
  · unfold matchAtoms
    rw [if_neg (by omega), if_neg (by omega), if_neg (by omega), if_neg (by simp)]
    rw [List.take_of_length_le (by omega)]

/-- Witness for C3 at two candidates and a request for five matches. -/
theorem match_atoms_return_shapes_witness :
    matchAtoms [[(0, 0)], [(1, 1)]] [5, 2] 1 false =
      .ok (.single ((scoreRmsd [[(0, 0)], [(1, 1)]] [5, 2]).1.headD [])) ∧
    matchAtoms [[(0, 0)], [(1, 1)]] [5, 2] 5 false =
      .ok (.multiple (scoreRmsd [[(0, 0)], [(1, 1)]] [5, 2]).1) ∧
    (scoreRmsd [[(0, 0)], [(1, 1)]] [5, 2]).1.length = 2 :=
  match_atoms_return_shapes [[(0, 0)], [(1, 1)]] [5, 2] 5
    (by decide) (by decide) (by decide) (by decide)

/-- Claim C4: whenever _update_energy_dict confirms that no new frame is
present (a line step returns early with the store as it stood), the
remaining lines of the log are not processed, no error is raised, and
the store is exactly the one at the moment of confirmation — processing
the confirming line followed by any suffix equals processing the
confirming line alone. -/
theorem update_energy_dict_halts_on_duplicate
    (pt : ProtocolTy) (h : Bool) (d d2 : Store)
    (line : String) (rest : List String)
    (hstop : stepLine pt h d line = .halt d2) :
    runLines pt h d (line :: rest) = .ok d2 ∧
    runLines pt h d (line :: rest) = runLines pt h d [line] := by
  constructor
  · simp only [runLines, hstop]
  · simp only [runLines, hstop]

/-- Witness for C4: a repeated NSTEP line with a further (unprocessed)
energy line behind it. -/
theorem update_energy_dict_halts_on_duplicate_witness :
    stepLine .production false [("NSTEP", ["100"])] dynLine =
      .halt [("NSTEP", ["100"])] ∧
    runLines .production false [("NSTEP", ["100"])] [dynLine, "ETOT = -7.0\n"] =
      .ok [("NSTEP", ["100"])] :=
  ⟨by decide,
   (update_energy_dict_halts_on_duplicate .production false [("NSTEP", ["100"])]
     [("NSTEP", ["100"])] dynLine ["ETOT = -7.0\n"] (by decide)).1⟩

/-- Claim C5: with a trajectory of n ≥ 1 frames, getFrames succeeds for
index 0 and for index n - 1, and fails for index n (one past the end):
the out-of-range branch raises — the exception that escapes is the
NameError produced while formatting the out-of-range message, because
the raise statement's format expression reads the undefined name s —
so the request is rejected rather than answered with an absent result. -/
theorem get_frames_index_range_check (n : Nat) (hn : 1 ≤ n) :
    getFrames true n (.intArg 0) = .ok (some [0]) ∧
    getFrames true n (.intArg ((n : Int) - 1)) = .ok (some [(n : Int) - 1]) ∧
    getFrames true n (.intArg (n : Int)) = .error (.nameError "s") := by
  have e1 : framesLoop ((n : Int) - 1) [] [(0 : Int)] = .ok [0] := by
    unfold framesLoop
    rw [if_neg (by omega)]
    rfl
  have e2 : framesLoop ((n : Int) - 1) [] [(n : Int) - 1] = .ok [(n : Int) - 1] := by
    unfold framesLoop
    rw [if_neg (by omega)]
    rfl
  have e3 : framesLoop ((n : Int) - 1) [] [(n : Int)] = .error (.nameError "s") := by
    unfold framesLoop
    rw [if_pos (by omega)]
  refine ⟨?_, ?_, ?_⟩
  · simp [getFrames, e1]
  · simp [getFrames, e2]
  · simp [getFrames, e3]

/-- Witness for C5 at a three-frame trajectory. -/
theorem get_frames_index_range_check_witness :
    getFrames true 3 (.intArg 0) = .ok (some [0]) ∧
    getFrames true 3 (.intArg ((3 : Int) - 1)) = .ok (some [(3 : Int) - 1]) ∧
    getFrames true 3 (.intArg (3 : Int)) = .error (.nameError "s") :=
  get_frames_index_range_check 3 (by decide)

/-- Claim C6 (code bug): through getRecord the step-count key is coerced
to float, not int: getRecord builds its key with record.strip().upper(),
a freshly allocated string that is never the interned 'NSTEP' literal,
so the identity test `key is 'NSTEP'` of _get_stdout_record is false on
that path and the float branch runs, for the latest-value and the
time-series query alike.  The int coercion the claim describes happens
only on the internal accessor path that passes the literal itself
(getStep) — the parser's own duplicate check uses == — so the `is` on a
computed key is the slip.  The absence part of the claim does hold:
empty store and unseen keys give None, never an error, on both paths. -/
theorem get_record_nstep_float_coercion_bug :
    getRecord twoFrameStore "NSTEP" false = .ok (some (.single (.f 200 0))) ∧
    getRecord twoFrameStore "NSTEP" true =
      .ok (some (.series [.f 100 0, .f 200 0])) ∧
    getStep twoFrameStore false = .ok (some (.single (.i 200))) ∧
    (PyNum.f 200 0 ≠ PyNum.i 200) ∧
    getRecord twoFrameStore "ETOT" false = .ok (some (.single (.f (-12348) 1))) ∧
    getRecord twoFrameStore "VOLUME" true = .ok none ∧
    getRecord [] "NSTEP" false = .ok none :=
  ⟨by decide, by decide, by decide, by decide, by decide, by decide, by decide⟩

/-- Claim C7: when the MCS matcher returns zero candidate mappings,
matchAtoms returns None (no mapping) and raises no error, for any
non-negative matches request and either return_scores mode. -/
theorem match_atoms_zero_candidates_none
    (scores : List Int) (K : Int) (rs : Bool) (hK : 0 ≤ K) :
    matchAtoms [] scores K rs = .ok .noMatch := by
  unfold matchAtoms
  rw [if_neg (by omega)]
  simp

/-- Witness for C7 at a request for one match. -/
theorem match_atoms_zero_candidates_none_witness :
    matchAtoms [] [] 1 false = .ok .noMatch :=
  match_atoms_zero_candidates_none [] 1 false (by decide)

/-- Claim C8: the watcher moves from NotWatching to Watching on the
first modified event after start (start resets the flag), and entering
Watching replaces any stale store with an empty one before parsing;
later modified events while Watching update the store in place without
clearing it; other event kinds change nothing. -/
theorem watcher_state_machine
    (pt : ProtocolTy) (lines : List String)
    (stale d : Store) (s : WatchState) (et : String) (hne : et ≠ "modified") :
    onAnyEvent pt lines "modified" ⟨false, stale⟩ =
      (updateEnergyDict pt lines []).map (fun d2 => ⟨true, d2⟩) ∧
    onAnyEvent pt lines "modified" ⟨true, d⟩ =
      (updateEnergyDict pt lines d).map (fun d2 => ⟨true, d2⟩) ∧
    amberStart false s = ⟨false, s.store⟩ ∧
    onAnyEvent pt lines et s = .ok s := by
  refine ⟨?_, ?_, rfl, ?_⟩
  · simp [onAnyEvent]
  · simp [onAnyEvent]
  · simp [onAnyEvent, hne]

/-- Witness for C8: a first modified event wipes a stale store and parses
the log from scratch; the flag ends up set. -/
theorem watcher_state_machine_witness :
    onAnyEvent .production [dynLine] "modified" ⟨false, [("STALE", ["1"])]⟩ =
      (updateEnergyDict .production [dynLine] []).map (fun d2 => ⟨true, d2⟩) ∧
    onAnyEvent .production [dynLine] "modified" ⟨false, [("STALE", ["1"])]⟩ =
      .ok ⟨true, dynStore⟩ :=
  ⟨(watcher_state_machine .production [dynLine] [("STALE", ["1"])] [] ⟨false, []⟩
      "created" (by decide)).1,
   by decide⟩

/-- Claim C9 (code bug): with an explicit executable path that exists,
Amber.__init__ binds self._exe to the protocol argument (the source line
is `self._exe = protocol`), not to the supplied path, contradicting its
own docstring; and with AMBERHOME set but $AMBERHOME/bin/sander missing,
the constructor neither raises nor falls back to the PATH search, so the
resolution failure is not fatal at construction. -/
theorem init_exe_resolution_divergence :
    resolveExe (some "/opt/amber/bin/sander") none (fun _ => true)
      (.error (.ioError "findExe")) = .ok (some .protocolObject) ∧
    (∀ p, ExeVal.protocolObject ≠ ExeVal.path p) ∧
    resolveExe none (some "/opt/amber") (fun _ => false)
      (.error (.ioError "findExe")) = .ok none :=
  ⟨by decide, fun p h => ExeVal.noConfusion h, by decide⟩

/-- Claim C10: getFrames with an existing trajectory and an empty index
list does not return an empty frame list: the empty list passes the
index validation, the loop body never runs, and the removal of the
temporary frame file reads the loop-local frame_file variable, raising
a NameError instead of returning. -/
theorem get_frames_empty_list_raises (n : Nat) :
    getFrames true n (.listArg []) = .error (.nameError "frame_file") ∧
    ∀ fs, getFrames true n (.listArg []) ≠ .ok (some fs) := by
  constructor
  · simp [getFrames, framesLoop]
  · intro fs
    simp [getFrames, framesLoop]

end BSS
